import Mathlib

/-!
Verification of the Slime toolchain (bytecode codec, constant pools, code
generator, stack virtual machine, value model and reference-graph GC
bookkeeping) against its natural-language specification.

The development is a shallow embedding of the C++ sources:
  - bytecode.h / bytecode.cpp : container, writer, binary file codec
  - value.h                   : tagged Value with coercions and equality
  - gc_value.h                : GC reference-edge bookkeeping of GCValue
  - simple_interpreter.cpp    : BytecodeGenerator and BytecodeVM

C++ doubles are modelled by rationals (Rat); every concrete number that the
theorems touch is a small integer or a small decimal, on which double
arithmetic is exact, so the rational model is faithful there.  Where the
codec copies a double bit-for-bit we model the pool entry by its 64-bit
pattern instead (see FileBytecode).  C++ std::string is byte-oriented; at
file level strings are modelled as byte lists, elsewhere as Lean strings
(all concrete inputs are ASCII, where the two agree).
-/

namespace Slime

/-! ### Little-endian byte helpers (raw struct writes in bytecode.cpp)

saveBytecodeToFile writes the version, the counts, the code size and the
doubles by copying their memory representation; on the x86 hosts the code
targets this is little-endian.  loadBytecodeFromFile reads them back the
same way, so one pair of helpers models both sides. -/

/-- Little-endian encoding of a value into k bytes (low byte first). -/
def leBytes : Nat → Nat → List Nat
  | 0, _ => []
  | k + 1, v => v % 256 :: leBytes k (v / 256)

/-- Value of a little-endian byte list. -/
def leVal (l : List Nat) : Nat :=
  l.foldr (fun b acc => b + 256 * acc) 0

theorem leBytes_length (k v : Nat) : (leBytes k v).length = k := by
  induction k generalizing v with
  | zero => rfl
  | succ k ih => simp [leBytes, ih]

theorem leVal_leBytes (k v : Nat) : leVal (leBytes k v) = v % 256 ^ k := by
  induction k generalizing v with
  | zero => simp [leBytes, leVal, Nat.mod_one]
  | succ k ih =>
      have h1 : v % (256 * 256 ^ k) % 256 = v % 256 :=
        Nat.mod_mod_of_dvd v ⟨256 ^ k, rfl⟩
      have h2 : v % (256 * 256 ^ k) / 256 = v / 256 % 256 ^ k :=
        Nat.mod_mul_right_div_self v 256 (256 ^ k)
      have h3 := Nat.div_add_mod (v % (256 * 256 ^ k)) 256
      have h4 : (256 : Nat) ^ (k + 1) = 256 * 256 ^ k := by
        rw [Nat.pow_succ, Nat.mul_comm]
      simp only [leBytes, leVal, List.foldr] at *
      rw [ih, h4]
      omega

theorem leVal_leBytes_of_lt {k v : Nat} (h : v < 256 ^ k) :
    leVal (leBytes k v) = v := by
  rw [leVal_leBytes, Nat.mod_eq_of_lt h]

/-! ### The file-level container

The Bytecode struct of bytecode.h, seen at the granularity the binary codec
works at: instruction bytes, byte-list string pools, and the number pool as
the 64-bit patterns of its doubles (the codec copies each double verbatim,
so its numeric value never matters to the codec). -/

structure FileBytecode where
  code : List Nat
  strings : List (List Nat)
  numbers : List Nat
  constants : List (List Nat)
  functions : List (List Nat)
deriving DecidableEq

/-- Serialization of one length-prefixed pool entry: the source casts the
size to uint16_t and then writes that many bytes. -/
def encEntry (s : List Nat) : List Nat :=
  leBytes 2 (s.length % 65536) ++ s.take (s.length % 65536)

/-- Byte stream produced by saveBytecodeToFile (bytecode.cpp lines 20-73):
magic, version 0x0100, code size and bytes, then the four pools.  Counts are
cast to uint16_t (code size to uint32_t) exactly as in the source; the
string-pool loop runs over the whole vector even when its count truncated,
while the number pool writes numberCount * 8 bytes from the front. -/
def encodeFile (b : FileBytecode) : List Nat :=
  [83, 76, 66, 84] ++
  leBytes 2 256 ++
  leBytes 4 (b.code.length % 4294967296) ++ b.code.take (b.code.length % 4294967296) ++
  leBytes 2 (b.strings.length % 65536) ++ (b.strings.map encEntry).flatten ++
  leBytes 2 (b.numbers.length % 65536) ++
    ((b.numbers.take (b.numbers.length % 65536)).map (leBytes 8)).flatten ++
  leBytes 2 (b.constants.length % 65536) ++ (b.constants.map encEntry).flatten ++
  leBytes 2 (b.functions.length % 65536) ++ (b.functions.map encEntry).flatten

/-- Take exactly n bytes from the stream, failing when it is too short.
(The C++ loader never checks the stream state after a read; we only ever
decode complete streams, where the two behaviours agree.) -/
def takeN (n : Nat) (l : List Nat) : Option (List Nat × List Nat) :=
  if n ≤ l.length then some (l.take n, l.drop n) else none

/-- Read a k-byte little-endian unsigned value. -/
def readLE (k : Nat) (l : List Nat) : Option (Nat × List Nat) :=
  (takeN k l).map (fun p => (leVal p.1, p.2))

/-- Read one length-prefixed pool entry. -/
def readEntry (l : List Nat) : Option (List Nat × List Nat) :=
  match readLE 2 l with
  | some (len, r) => takeN len r
  | none => none

/-- Read n length-prefixed pool entries. -/
def readEntries : Nat → List Nat → Option (List (List Nat) × List Nat)
  | 0, l => some ([], l)
  | n + 1, l =>
      match readEntry l with
      | some (s, r) =>
          match readEntries n r with
          | some (ss, r2) => some (s :: ss, r2)
          | none => none
      | none => none

/-- Read n raw 8-byte doubles (as their 64-bit patterns). -/
def readDoubles : Nat → List Nat → Option (List Nat × List Nat)
  | 0, l => some ([], l)
  | n + 1, l =>
      match takeN 8 l with
      | some (chunk, r) =>
          match readDoubles n r with
          | some (ds, r2) => some (leVal chunk :: ds, r2)
          | none => none
      | none => none

/-- Container reconstructed by loadBytecodeFromFile (bytecode.cpp lines
76-146): check the magic with C-string semantics (std::string(magic) stops
at the first NUL byte), check version 0x0100, then read the code segment
and the four pools in order.  Trailing bytes are ignored, as in the source. -/
def decodeFile (l : List Nat) : Option FileBytecode :=
  match takeN 4 l with
  | none => none
  | some (magic, r0) =>
    if magic.takeWhile (fun b => b != 0) = [83, 76, 66, 84] then
      match readLE 2 r0 with
      | none => none
      | some (ver, r1) =>
        if ver = 256 then
          match readLE 4 r1 with
          | none => none
          | some (codeSize, r2) =>
            match takeN codeSize r2 with
            | none => none
            | some (code, r3) =>
              match readLE 2 r3 with
              | none => none
              | some (sc, r4) =>
                match readEntries sc r4 with
                | none => none
                | some (strs, r5) =>
                  match readLE 2 r5 with
                  | none => none
                  | some (nc, r6) =>
                    match readDoubles nc r6 with
                    | none => none
                    | some (nums, r7) =>
                      match readLE 2 r7 with
                      | none => none
                      | some (cc, r8) =>
                        match readEntries cc r8 with
                        | none => none
                        | some (cs, r9) =>
                          match readLE 2 r9 with
                          | none => none
                          | some (fc, r10) =>
                            match readEntries fc r10 with
                            | none => none
                            | some (fns, _) =>
                              some ⟨code, strs, nums, cs, fns⟩
        else none
    else none

/-! ### Round-trip lemmas -/

theorem takeN_append (l r : List Nat) : takeN l.length (l ++ r) = some (l, r) := by
  simp [takeN]

theorem takeN_append_of_eq {n : Nat} (l r : List Nat) (h : l.length = n) :
    takeN n (l ++ r) = some (l, r) := by
  subst h; exact takeN_append l r

theorem readLE_leBytes (k v : Nat) (r : List Nat) (h : v < 256 ^ k) :
    readLE k (leBytes k v ++ r) = some (v, r) := by
  rw [readLE, takeN_append_of_eq (leBytes k v) r (leBytes_length k v)]
  simp [leVal_leBytes_of_lt h]

theorem readEntry_encEntry (s : List Nat) (r : List Nat) (h : s.length < 65536) :
    readEntry (encEntry s ++ r) = some (s, r) := by
  have hmod : s.length % 65536 = s.length := Nat.mod_eq_of_lt h
  rw [encEntry, hmod, List.take_length]
  rw [readEntry, List.append_assoc, readLE_leBytes 2 s.length (s ++ r) h]
  exact takeN_append s r

theorem readEntries_enc (ss : List (List Nat)) (r : List Nat)
    (h : ∀ s ∈ ss, s.length < 65536) :
    readEntries ss.length ((ss.map encEntry).flatten ++ r) = some (ss, r) := by
  induction ss with
  | nil => simp [readEntries]
  | cons s ss ih =>
      have h1 : readEntry (encEntry s ++ ((ss.map encEntry).flatten ++ r)) =
          some (s, (ss.map encEntry).flatten ++ r) :=
        readEntry_encEntry s _ (h s (by simp))
      have h2 := ih (fun t ht => h t (by simp [ht]))
      simp only [List.map_cons, List.flatten_cons, List.length_cons, List.append_assoc]
      rw [readEntries, h1]
      simp only [h2]

theorem readDoubles_enc (ns : List Nat) (r : List Nat)
    (h : ∀ n ∈ ns, n < 18446744073709551616) :
    readDoubles ns.length ((ns.map (leBytes 8)).flatten ++ r) = some (ns, r) := by
  induction ns with
  | nil => simp [readDoubles]
  | cons n ns ih =>
      have h1 : takeN 8 (leBytes 8 n ++ ((ns.map (leBytes 8)).flatten ++ r)) =
          some (leBytes 8 n, (ns.map (leBytes 8)).flatten ++ r) :=
        takeN_append_of_eq (leBytes 8 n) _ (leBytes_length 8 n)
      have h2 := ih (fun m hm => h m (by simp [hm]))
      have h3 : leVal (leBytes 8 n) = n :=
        leVal_leBytes_of_lt (by have := h n (by simp); norm_num at this ⊢; omega)
      simp only [List.map_cons, List.flatten_cons, List.length_cons, List.append_assoc]
      rw [readDoubles, h1]
      simp only [h2, h3]

theorem takeN_magic (r : List Nat) :
    takeN 4 ([83, 76, 66, 84] ++ r) = some ([83, 76, 66, 84], r) :=
  takeN_append_of_eq _ _ rfl

/-- C1 (amended): for every Bytecode container whose code segment fits the
32-bit length field and whose pool sizes and entry byte lengths fit the
16-bit count fields of the format, decoding the result of encoding it
(loadBytecodeFromFile after saveBytecodeToFile) reproduces an instruction
byte sequence identical to the original and all four pools (strings,
numbers, constants, functions) with identical contents in the same order. -/
theorem C1_round_trip (b : FileBytecode)
    (hc : b.code.length < 4294967296)
    (hs : b.strings.length < 65536)
    (hse : ∀ s ∈ b.strings, s.length < 65536)
    (hn : b.numbers.length < 65536)
    (hne : ∀ n ∈ b.numbers, n < 18446744073709551616)
    (hk : b.constants.length < 65536)
    (hke : ∀ s ∈ b.constants, s.length < 65536)
    (hf : b.functions.length < 65536)
    (hfe : ∀ s ∈ b.functions, s.length < 65536) :
    decodeFile (encodeFile b) = some b := by
  obtain ⟨code, strings, numbers, constants, functions⟩ := b
  simp only at hc hs hse hn hne hk hke hf hfe
  unfold encodeFile
  dsimp only
  rw [Nat.mod_eq_of_lt hc, Nat.mod_eq_of_lt hs, Nat.mod_eq_of_lt hn,
    Nat.mod_eq_of_lt hk, Nat.mod_eq_of_lt hf, List.take_length, List.take_length]
  simp only [List.append_assoc]
  unfold decodeFile
  rw [takeN_magic]
  simp only [List.takeWhile]
  norm_num
  rw [readLE_leBytes 2 256 _ (by norm_num)]
  simp only
  rw [readLE_leBytes 4 code.length _ (by simpa using hc)]
  simp only
  rw [takeN_append]
  simp only
  rw [readLE_leBytes 2 strings.length _ (by simpa using hs)]
  simp only
  rw [readEntries_enc strings _ hse]
  simp only
  rw [readLE_leBytes 2 numbers.length _ (by simpa using hn)]
  simp only
  rw [readDoubles_enc numbers _ hne]
  simp only
  rw [readLE_leBytes 2 constants.length _ (by simpa using hk)]
  simp only
  rw [readEntries_enc constants _ hke]
  simp only
  rw [readLE_leBytes 2 functions.length _ (by simpa using hf)]
  simp only
  rw [show ((functions.map encEntry).flatten : List Nat) =
        (functions.map encEntry).flatten ++ [] from (List.append_nil _).symm]
  rw [readEntries_enc functions _ hfe]
  exact ⟨by decide, by simp⟩

/-- C1 witness: the round trip holds at a small concrete container with one
entry in each pool. -/
theorem C1_round_trip_witness :
    decodeFile (encodeFile (FileBytecode.mk [17, 3] [[104, 105]] [42] [[120]] [[112]])) =
      some (FileBytecode.mk [17, 3] [[104, 105]] [42] [[120]] [[112]]) :=
  C1_round_trip _ (by decide) (by decide) (by decide) (by decide) (by decide)
    (by decide) (by decide) (by decide) (by decide)

/-- Container with a single 65536-byte string: the uint16_t cast in
saveBytecodeToFile truncates its length field to 0 and writes no content
bytes, so the decoded container holds an empty string instead. -/
def cexC1 : FileBytecode :=
  ⟨[], [List.replicate 65536 97], [], [], []⟩

/-- C1 counterexample: the round trip fails, as stated for every container,
at a container holding one string of 65536 bytes (its length does not fit
the 16-bit length field of the format). -/
theorem C1_counterexample : decodeFile (encodeFile cexC1) ≠ some cexC1 := by
  have hb : (List.replicate 65536 (97 : Nat)).length % 65536 = 0 := by
    rw [List.length_replicate]
  have henc : encodeFile cexC1 =
      [83, 76, 66, 84, 0, 1, 0, 0, 0, 0, 1, 0, 0, 0, 0, 0, 0, 0, 0, 0] := by
    rw [encodeFile]
    rw [show cexC1.strings = [List.replicate 65536 97] from rfl]
    simp only [cexC1, encEntry, hb, List.map_cons, List.map_nil, List.take_zero]
    rfl
  rw [henc]
  rw [show decodeFile [83, 76, 66, 84, 0, 1, 0, 0, 0, 0, 1, 0, 0, 0, 0, 0, 0, 0, 0, 0] =
        some (⟨[], [[]], [], [], []⟩ : FileBytecode) from rfl]
  intro h
  have h1 : ([[]] : List (List Nat)) = cexC1.strings :=
    congrArg FileBytecode.strings (Option.some.inj h)
  have h2 : ([] : List Nat) = List.replicate 65536 97 :=
    congrArg (fun l => l.headD [97]) h1
  have h3 := congrArg List.length h2
  rw [List.length_replicate] at h3
  simp at h3

/-! ### The Value model (value.h)

A tagged union over nil, number, string, boolean, array and string-keyed
hash.  The C++ std::map of a hash is modelled as an association list in key
order; only lookup and sizes are ever observed, where the two agree. -/

inductive Value where
  | nil : Value
  | num : Rat → Value
  | str : String → Value
  | boolean : Bool → Value
  | arr : List Value → Value
  | hash : List (String × Value) → Value

/-- Type tag of a Value (Value::getType). -/
inductive VType where
  | numberT | stringT | booleanT | nilT | arrayT | hashT
deriving DecidableEq

def typeTag : Value → VType
  | .nil => .nilT
  | .num _ => .numberT
  | .str _ => .stringT
  | .boolean _ => .booleanT
  | .arr _ => .arrayT
  | .hash _ => .hashT

def isNumberV : Value → Bool
  | .num _ => true
  | _ => false

def isStringV : Value → Bool
  | .str _ => true
  | _ => false

/-- Digit-run parser used by the stod model: accumulated value, number of
digits consumed, and the rest of the input. -/
def parseDigitsAux : List Char → Nat → Nat → Nat × Nat × List Char
  | [], acc, cnt => (acc, cnt, [])
  | c :: cs, acc, cnt =>
      if 48 ≤ c.toNat ∧ c.toNat ≤ 57 then
        parseDigitsAux cs (acc * 10 + (c.toNat - 48)) (cnt + 1)
      else (acc, cnt, c :: cs)

/-- Modelled from the spec: std::stod is host library code, not part of this
repository.  The spec says numeric coercion from string parses with a
best-effort fallback to 0 on failure; std::stod skips leading whitespace
and parses the longest prefix that reads as an optionally signed decimal
literal, and throws when there is none — Value::toNumber catches that and
returns 0, which is folded into this function.  (Hexadecimal, exponent and
infinity forms are outside the inputs this development touches.) -/
def strToNum (s : String) : Rat :=
  let cs := s.toList.dropWhile (fun c => c == ' ' || c == '\t' || c == '\n' || c == '\r')
  let signAndRest : Bool × List Char :=
    match cs with
    | c :: rest => if c = '-' then (true, rest) else if c = '+' then (false, rest) else (false, cs)
    | [] => (false, [])
  let ipart := parseDigitsAux signAndRest.2 0 0
  let fpart : Nat × Nat × List Char :=
    match ipart.2.2 with
    | c :: rest => if c = '.' then parseDigitsAux rest 0 0 else (0, 0, ipart.2.2)
    | [] => (0, 0, [])
  if ipart.2.1 = 0 ∧ fpart.2.1 = 0 then 0
  else
    let mag : Rat := (ipart.1 : Rat) + (fpart.1 : Rat) / ((10 : Rat) ^ fpart.2.1)
    if signAndRest.1 then -mag else mag

/-- Zero-padded six-digit group for the fractional part of %f output. -/
def pad6 (n : Nat) : String :=
  let s := Nat.repr n
  String.mk (List.replicate (6 - s.length) '0') ++ s

/-- Modelled from the spec at the formatting level: std::to_string(double)
is host library code producing printf %f output with six fractional
digits, rounding to the nearest representable decimal (every number the
theorems print is exact at six digits, where no rounding mode matters). -/
def numToString (q : Rat) : String :=
  if q < 0 then
    let n : Nat := (Rat.floor (-q * 1000000 + 1 / 2)).toNat
    "-" ++ Nat.repr (n / 1000000) ++ "." ++ pad6 (n % 1000000)
  else
    let n : Nat := (Rat.floor (q * 1000000 + 1 / 2)).toNat
    Nat.repr (n / 1000000) ++ "." ++ pad6 (n % 1000000)

/-! Value::toString (value.h lines 124-159). -/
mutual
def toStringV : Value → String
  | .num q => numToString q
  | .str s => s
  | .boolean b => if b then "true" else "false"
  | .nil => "nil"
  | .arr elems => "[" ++ toStringElems elems ++ "]"
  | .hash entries => "\x7b" ++ toStringPairs entries ++ "\x7d"
def toStringElems : List Value → String
  | [] => ""
  | [v] => toStringV v
  | v :: rest => toStringV v ++ ", " ++ toStringElems rest
def toStringPairs : List (String × Value) → String
  | [] => ""
  | [(k, v)] => k ++ ": " ++ toStringV v
  | (k, v) :: rest => k ++ ": " ++ toStringV v ++ ", " ++ toStringPairs rest
end

/-- Value::toNumber (value.h lines 162-184). -/
def toNumberV : Value → Rat
  | .num q => q
  | .str s => strToNum s
  | .boolean b => if b then 1 else 0
  | .nil => 0
  | .arr elems => (elems.length : Rat)
  | .hash entries => (entries.length : Rat)

/-- Value::toBoolean (value.h lines 187-204): type-dependent truthiness. -/
def toBooleanV : Value → Bool
  | .num q => q != 0
  | .str s => !(s.isEmpty)
  | .boolean b => b
  | .nil => false
  | .arr elems => !(elems.isEmpty)
  | .hash entries => !(entries.isEmpty)

/-- Value::asBoolean (value.h lines 68-73): returns the carried boolean and
throws the typed failure for every other tag. -/
def asBooleanE : Value → Except String Bool
  | .boolean b => Except.ok b
  | _ => Except.error ("Value is not a boolean")

/-! Value::operator== (value.h lines 207-241): false on any tag mismatch,
then componentwise comparison; arrays compare element by element after a
size check, hashes look every key of the left side up on the right after a
size check. -/
mutual
def valueEq : Value → Value → Bool
  | .nil, .nil => true
  | .num a, .num b => a == b
  | .str a, .str b => a == b
  | .boolean a, .boolean b => a == b
  | .arr a, .arr b => a.length == b.length && valueEqElems a b
  | .hash a, .hash b => a.length == b.length && valueEqPairs a b
  | _, _ => false
def valueEqElems : List Value → List Value → Bool
  | [], _ => true
  | _ :: _, [] => false
  | x :: xs, y :: ys => valueEq x y && valueEqElems xs ys
def valueEqPairs : List (String × Value) → List (String × Value) → Bool
  | [], _ => true
  | (k, v) :: rest, h2 =>
      match h2.lookup k with
      | some w => valueEq v w && valueEqPairs rest h2
      | none => false
end

/-- Value::operator!= (value.h lines 243-245). -/
def valueNe (a b : Value) : Bool := !(valueEq a b)

/-! ### Opcodes (bytecode.h lines 9-44) -/

def OP_NOP : Nat := 0
def OP_PUSH_NUM : Nat := 1
def OP_PUSH_STR : Nat := 2
def OP_PUSH_CONST : Nat := 3
def OP_POP : Nat := 4
def OP_ADD : Nat := 5
def OP_SUB : Nat := 6
def OP_MUL : Nat := 7
def OP_DIV : Nat := 8
def OP_MOD : Nat := 9
def OP_CALL : Nat := 10
def OP_JMP : Nat := 11
def OP_JMP_IF_FALSE : Nat := 12
def OP_JMP_IF_TRUE : Nat := 13
def OP_LOAD : Nat := 14
def OP_STORE : Nat := 15
def OP_RET : Nat := 16
def OP_HALT : Nat := 17
def OP_BREAK : Nat := 32
def OP_CONTINUE : Nat := 33

/-! ### The in-memory container and BytecodeWriter (bytecode.h lines 47-138)

Strings and numbers carry their semantic content here; the byte-exact view
used by the binary codec is FileBytecode above. -/

structure Bytecode where
  code : List Nat
  strings : List String
  numbers : List Rat
  constants : List String
  functions : List String
deriving DecidableEq

/-- Generator state: the container under construction, the four interning
maps of BytecodeGenerator (std::map modelled as association lists) and the
loop stack (simple_interpreter.cpp lines 173-179). -/
structure GenState where
  bytecode : Bytecode
  stringConstants : List (String × Nat)
  numberConstants : List (Rat × Nat)
  generalConstants : List (String × Nat)
  functionNames : List (String × Nat)
  loopStack : List (Nat × Nat)
deriving DecidableEq

def emptyGen : GenState := ⟨⟨[], [], [], [], []⟩, [], [], [], [], []⟩

/-- BytecodeWriter::writeOpCode. -/
def writeOp (s : GenState) (op : Nat) : GenState :=
  { s with bytecode := { s.bytecode with code := s.bytecode.code ++ [op] } }

/-- BytecodeWriter::writeByte (operand is a uint8_t). -/
def writeByteG (s : GenState) (v : Nat) : GenState :=
  { s with bytecode := { s.bytecode with code := s.bytecode.code ++ [v % 256] } }

/-- BytecodeWriter::writeShort: big-endian, one byte of the shifts masked
with 0xFF each. -/
def writeShortG (s : GenState) (v : Nat) : GenState :=
  { s with bytecode :=
    { s.bytecode with code := s.bytecode.code ++ [v / 256 % 256, v % 256] } }

/-- BytecodeWriter::writeInt: big-endian 4 bytes. -/
def writeIntG (s : GenState) (v : Nat) : GenState :=
  { s with bytecode :=
    { s.bytecode with code := s.bytecode.code ++
      [v / 16777216 % 256, v / 65536 % 256, v / 256 % 256, v % 256] } }

/-- BytecodeWriter::getPosition. -/
def getPosition (s : GenState) : Nat := s.bytecode.code.length

/-- BytecodeWriter::writePositionPlaceholder: four zero bytes. -/
def writePlaceholder (s : GenState) : GenState := writeIntG s 0

/-- BytecodeWriter::updatePositionPlaceholder: overwrite the four bytes at
pos with the big-endian target (the source patches at exactly the offset it
is given). -/
def updatePlaceholder (s : GenState) (pos target : Nat) : GenState :=
  { s with bytecode :=
    { s.bytecode with code :=
      s.bytecode.code.take pos ++
      [target / 16777216 % 256, target / 65536 % 256, target / 256 % 256, target % 256] ++
      s.bytecode.code.drop (pos + 4) } }

/-! ### Interning (BytecodeGenerator::addStringConstant and friends,
simple_interpreter.cpp lines 1101-1147): look the value up in the map,
return the recorded index when present, otherwise record the current pool
size (cast to uint16_t) and append. -/

def addStringConstant (str : String) (s : GenState) : Nat × GenState :=
  match s.stringConstants.lookup str with
  | some i => (i, s)
  | none =>
      let index := s.bytecode.strings.length % 65536
      (index,
        { s with
          bytecode := { s.bytecode with strings := s.bytecode.strings ++ [str] },
          stringConstants := s.stringConstants ++ [(str, index)] })

def addNumberConstant (num : Rat) (s : GenState) : Nat × GenState :=
  match s.numberConstants.lookup num with
  | some i => (i, s)
  | none =>
      let index := s.bytecode.numbers.length % 65536
      (index,
        { s with
          bytecode := { s.bytecode with numbers := s.bytecode.numbers ++ [num] },
          numberConstants := s.numberConstants ++ [(num, index)] })

def addGeneralConstant (c : String) (s : GenState) : Nat × GenState :=
  match s.generalConstants.lookup c with
  | some i => (i, s)
  | none =>
      let index := s.bytecode.constants.length % 65536
      (index,
        { s with
          bytecode := { s.bytecode with constants := s.bytecode.constants ++ [c] },
          generalConstants := s.generalConstants ++ [(c, index)] })

def addFunctionName (fn : String) (s : GenState) : Nat × GenState :=
  match s.functionNames.lookup fn with
  | some i => (i, s)
  | none =>
      let index := s.bytecode.functions.length % 65536
      (index,
        { s with
          bytecode := { s.bytecode with functions := s.bytecode.functions ++ [fn] },
          functionNames := s.functionNames ++ [(fn, index)] })

/-! ### The external tree (simple_interpreter.cpp lines 61-116) -/

inductive NType where
  | program | statementN | callN | stringLit | numberLit | identifierN
  | directiveN | expressionN | operatorN | ifN | whileN | forN | breakN
  | continueN | comparisonN | logicalN | assignN | blockN
deriving DecidableEq

inductive ASTNode where
  | mk : NType → String → List ASTNode → ASTNode

/-! ### BytecodeGenerator::generateNode and its statement and expression
helpers (simple_interpreter.cpp lines 1149-1439), one mutual block so the
recursion stays structural.  Each branch is a direct transcription:

  - program: generate every child in order.
  - statement: the use form generates its first child, the cra form its
    children from index 1 on; cre and del generate nothing.
  - if: condition, OP_JMP_IF_FALSE with a placeholder, then branch, and
    with an else child an OP_JMP placeholder patched around it; the patch
    offsets are the positions recorded before the opcode byte, exactly as
    in the source.
  - while and for: loop start, condition, OP_JMP_IF_FALSE placeholder, a
    loop-stack push, body (and for the for form the increment and an extra
    OP_NOP placeholder pair), OP_JMP back, patch, loop-stack pop.
  - break and continue: a bare opcode, with no loop-stack consultation.
  - assign: right-hand side, then OP_STORE with the interned name.
  - call: children, then OP_CALL with the interned function name and the
    child count as a uint8_t.
  - number literal, identifier, operator, expression: the generateExpression
    cases; every other node kind (string literal, directive, comparison,
    logical, block) falls to the default branch and emits nothing. -/

mutual
def generateNode : ASTNode → GenState → GenState
  | ASTNode.mk .program _ ch, s => generateNodeList ch s
  | ASTNode.mk .statementN v ch, s =>
      if v = "use" then
        match ch with
        | c :: _ => generateNode c s
        | [] => s
      else if v = "cra" then
        match ch with
        | _ :: rest => generateNodeList rest s
        | [] => s
      else s
  | ASTNode.mk .ifN _ ch, s =>
      match ch with
      | c0 :: c1 :: rest =>
          let s1 := generateNode c0 s
          let elseJumpPos := getPosition s1
          let s2 := writePlaceholder (writeOp s1 OP_JMP_IF_FALSE)
          let s3 := generateNode c1 s2
          match rest with
          | c2 :: _ =>
              let endJumpPos := getPosition s3
              let s4 := writePlaceholder (writeOp s3 OP_JMP)
              let s5 := updatePlaceholder s4 elseJumpPos (getPosition s4)
              let s6 := generateNode c2 s5
              updatePlaceholder s6 endJumpPos (getPosition s6)
          | [] => updatePlaceholder s3 elseJumpPos (getPosition s3)
      | _ => s
  | ASTNode.mk .whileN _ ch, s =>
      match ch with
      | c0 :: c1 :: _ =>
          let loopStartPos := getPosition s
          let s1 := generateNode c0 s
          let loopEndJumpPos := getPosition s1
          let s2 := writePlaceholder (writeOp s1 OP_JMP_IF_FALSE)
          let s3 := { s2 with loopStack := s2.loopStack ++ [(loopStartPos, loopEndJumpPos)] }
          let s4 := generateNode c1 s3
          let s5 := writeIntG (writeOp s4 OP_JMP) loopStartPos
          let s6 := updatePlaceholder s5 loopEndJumpPos (getPosition s5)
          { s6 with loopStack := s6.loopStack.dropLast }
      | _ => s
  | ASTNode.mk .forN _ ch, s =>
      match ch with
      | c0 :: c1 :: c2 :: c3 :: _ =>
          let s1 := generateNode c0 s
          let loopStartPos := getPosition s1
          let s2 := generateNode c1 s1
          let loopEndJumpPos := getPosition s2
          let s3 := writePlaceholder (writeOp s2 OP_JMP_IF_FALSE)
          let s4 := writePlaceholder (writeOp s3 OP_NOP)
          let s5 := { s4 with loopStack := s4.loopStack ++ [(loopStartPos, 0)] }
          let s6 := generateNode c3 s5
          let s7 := generateNode c2 s6
          let s8 := writeIntG (writeOp s7 OP_JMP) loopStartPos
          let s9 := updatePlaceholder s8 loopEndJumpPos (getPosition s8)
          { s9 with loopStack := s9.loopStack.dropLast }
      | _ => s
  | ASTNode.mk .breakN _ _, s => writeOp s OP_BREAK
  | ASTNode.mk .continueN _ _, s => writeOp s OP_CONTINUE
  | ASTNode.mk .assignN _ ch, s =>
      match ch with
      | c0 :: c1 :: _ =>
          let s1 := generateNode c1 s
          match c0 with
          | ASTNode.mk .identifierN name _ =>
              let r := addGeneralConstant name s1
              writeShortG (writeOp r.2 OP_STORE) r.1
          | _ => s1
      | _ => s
  | ASTNode.mk .callN v ch, s =>
      let s1 := generateNodeList ch s
      let r := addFunctionName v s1
      writeByteG (writeShortG (writeOp r.2 OP_CALL) r.1) (ch.length % 256)
  | ASTNode.mk .numberLit v _, s =>
      let r := addNumberConstant (strToNum v) s
      writeShortG (writeOp r.2 OP_PUSH_NUM) r.1
  | ASTNode.mk .identifierN v _, s =>
      let r := addGeneralConstant v s
      writeShortG (writeOp r.2 OP_LOAD) r.1
  | ASTNode.mk .operatorN v ch, s =>
      match ch with
      | c0 :: c1 :: _ =>
          let s1 := generateNode c0 s
          let s2 := generateNode c1 s1
          if v = "+" then writeOp s2 OP_ADD
          else if v = "-" then writeOp s2 OP_SUB
          else if v = "*" then writeOp s2 OP_MUL
          else if v = "/" then writeOp s2 OP_DIV
          else if v = "%" then writeOp s2 OP_MOD
          else s2
      | _ => s
  | ASTNode.mk .expressionN _ ch, s => generateNodeList ch s
  | ASTNode.mk _ _ _, s => s
def generateNodeList : List ASTNode → GenState → GenState
  | [], s => s
  | c :: cs, s => generateNodeList cs (generateNode c s)
end

/-- BytecodeGenerator::generate (simple_interpreter.cpp lines 1083-1099):
fresh state, generate the tree, then append OP_HALT. -/
def generate (ast : ASTNode) : Bytecode :=
  (writeOp (generateNode ast emptyGen) OP_HALT).bytecode

/-! ### The stack virtual machine (BytecodeVM, simple_interpreter.cpp
lines 211-225 and 1528-1779)

The machine state is the operand stack (head is the top), the variable
table (std::map modelled as an association list with in-place overwrite),
the program counter, everything written to standard output, and everything
written to the error stream.  GCValue wraps Value without changing any
value it carries, and the periodic collectGarbage call reclaims only
unreferenced heap bookkeeping, so neither appears in the machine state.
Failures thrown with std::runtime_error abort the instruction loop; they
are modelled by the Except error channel. -/

structure VMState where
  stack : List Value
  vars : List (String × Value)
  pc : Nat
  output : String
  errlog : List String

def initialVM : VMState := ⟨[], [], 0, "", []⟩

/-- std::map operator[] assignment: overwrite the key in place or insert. -/
def mapSet : List (String × Value) → String → Value → List (String × Value)
  | [], k, v => [(k, v)]
  | (k0, v0) :: rest, k, v =>
      if k0 = k then (k0, v) :: rest else (k0, v0) :: mapSet rest k v

/-- Unchecked byte fetch bytecode.code[i]; out-of-range operand reads are
undefined behaviour in the source and never occur in any run proved about
here, so the default 0 is unobservable. -/
def byteAt (bc : Bytecode) (i : Nat) : Nat := bc.code.getD i 0

/-- Two-byte big-endian operand fetch, (code[i] << 8) | code[i+1]. -/
def read16At (bc : Bytecode) (i : Nat) : Nat :=
  byteAt bc i * 256 + byteAt bc (i + 1)

/-- Four-byte big-endian operand fetch. -/
def read32At (bc : Bytecode) (i : Nat) : Nat :=
  byteAt bc i * 16777216 + byteAt bc (i + 1) * 65536 +
    byteAt bc (i + 2) * 256 + byteAt bc (i + 3)

/-- Truncation toward zero, as C double-to-int conversion and std::fmod use. -/
def ratTrunc (q : Rat) : Int := q.num.tdiv (q.den : Int)

/-- Modelled from the spec at the host-library boundary: std::fmod returns
a - trunc(a / b) * b, the remainder with the sign of the first operand. -/
def fmodQ (a b : Rat) : Rat := a - (ratTrunc (a / b) : Rat) * b

/-- Names registered by BytecodeVM::initBaselib (simple_interpreter.cpp
lines 1442-1526). -/
def baselibNames : List String :=
  ["System.Output.Print", "System.Output.Println",
   "System.Input.Read", "System.Input.ReadLine", "System.Time.Now",
   "System.Math.Add", "System.Math.Subtract", "System.Math.Multiply",
   "System.Math.Divide", "System.Math.Modulo"]

/-- Standard-output text appended by one built-in call.  The two print
functions write every argument followed by std::endl.  The input, time and
math built-ins write host-input-, clock- or stream-format-dependent text
that no claim observes; they are modelled as silent. -/
def builtinOutput (name : String) (args : List String) : String :=
  if name = "System.Output.Print" || name = "System.Output.Println" then
    String.join args ++ "\n"
  else ""

/-- BytecodeVM::executeInstruction (simple_interpreter.cpp lines
1567-1779): fetch the opcode at the program counter and dispatch on it, one
match arm per switch case.  Every arm mirrors the source, including the
silent skip of a push, load, store or call whose pool index is out of
range. -/
def executeInstruction (bc : Bytecode) (s : VMState) : Except String VMState :=
  if s.pc < bc.code.length then
    let pc1 := s.pc + 1
    match byteAt bc s.pc with
    | 0 => Except.ok { s with pc := pc1 }                             -- OP_NOP
    | 1 =>                                                            -- OP_PUSH_NUM
      let index := read16At bc pc1
      if index < bc.numbers.length then
        Except.ok { s with pc := pc1 + 2,
                           stack := Value.num (bc.numbers.getD index 0) :: s.stack }
      else Except.ok { s with pc := pc1 + 2 }
    | 2 =>                                                            -- OP_PUSH_STR
      let index := read16At bc pc1
      if index < bc.strings.length then
        Except.ok { s with pc := pc1 + 2,
                           stack := Value.str (bc.strings.getD index "") :: s.stack }
      else Except.ok { s with pc := pc1 + 2 }
    | 3 =>                                                            -- OP_PUSH_CONST
      let index := read16At bc pc1
      if index < bc.constants.length then
        Except.ok { s with pc := pc1 + 2,
                           stack := Value.str (bc.constants.getD index "") :: s.stack }
      else Except.ok { s with pc := pc1 + 2 }
    | 4 =>                                                            -- OP_POP
      match s.stack with
      | _ :: rest => Except.ok { s with pc := pc1, stack := rest }
      | [] => Except.error ("Stack underflow")
    | 5 =>                                                            -- OP_ADD
      match s.stack with
      | b :: a :: rest =>
          if isStringV a || isStringV b then
            Except.ok { s with pc := pc1,
                               stack := Value.str (toStringV a ++ toStringV b) :: rest }
          else
            Except.ok { s with pc := pc1,
                               stack := Value.num (toNumberV a + toNumberV b) :: rest }
      | _ => Except.error ("Stack underflow")
    | 6 =>                                                            -- OP_SUB
      match s.stack with
      | b :: a :: rest =>
          Except.ok { s with pc := pc1,
                             stack := Value.num (toNumberV a - toNumberV b) :: rest }
      | _ => Except.error ("Stack underflow")
    | 7 =>                                                            -- OP_MUL
      match s.stack with
      | b :: a :: rest =>
          Except.ok { s with pc := pc1,
                             stack := Value.num (toNumberV a * toNumberV b) :: rest }
      | _ => Except.error ("Stack underflow")
    | 8 =>                                                            -- OP_DIV
      match s.stack with
      | b :: a :: rest =>
          if toNumberV b ≠ 0 then
            Except.ok { s with pc := pc1,
                               stack := Value.num (toNumberV a / toNumberV b) :: rest }
          else Except.error ("Division by zero")
      | _ => Except.error ("Stack underflow")
    | 9 =>                                                            -- OP_MOD
      match s.stack with
      | b :: a :: rest =>
          if toNumberV b ≠ 0 then
            Except.ok { s with pc := pc1,
                               stack := Value.num (fmodQ (toNumberV a) (toNumberV b)) :: rest }
          else Except.error ("Modulo by zero")
      | _ => Except.error ("Stack underflow")
    | 10 =>                                                           -- OP_CALL
      let funcIndex := read16At bc pc1
      let argCount := byteAt bc (pc1 + 2)
      let pc3 := pc1 + 3
      if funcIndex < bc.functions.length then
        let funcName := bc.functions.getD funcIndex ""
        if argCount ≤ s.stack.length then
          let args := (s.stack.take argCount).reverse.map toStringV
          let rest := s.stack.drop argCount
          if baselibNames.contains funcName then
            Except.ok { s with pc := pc3, stack := rest,
                               output := s.output ++ builtinOutput funcName args }
          else
            Except.ok { s with pc := pc3, stack := rest,
                               errlog := s.errlog ++
                                 ["Error: Unknown function " ++ funcName] }
        else Except.error ("Stack underflow")
      else Except.ok { s with pc := pc3 }
    | 11 =>                                                           -- OP_JMP
      Except.ok { s with pc := read32At bc pc1 }
    | 12 =>                                                           -- OP_JMP_IF_FALSE
      match s.stack with
      | cond :: rest =>
          match asBooleanE cond with
          | Except.ok b =>
              Except.ok { s with pc := if !b then read32At bc pc1 else pc1 + 4,
                                 stack := rest }
          | Except.error e => Except.error e
      | [] => Except.error ("Stack underflow")
    | 13 =>                                                           -- OP_JMP_IF_TRUE
      match s.stack with
      | cond :: rest =>
          match asBooleanE cond with
          | Except.ok b =>
              Except.ok { s with pc := if b then read32At bc pc1 else pc1 + 4,
                                 stack := rest }
          | Except.error e => Except.error e
      | [] => Except.error ("Stack underflow")
    | 14 =>                                                           -- OP_LOAD
      let varIndex := read16At bc pc1
      if varIndex < bc.constants.length then
        let varName := bc.constants.getD varIndex ""
        let v := match s.vars.lookup varName with
          | some w => w
          | none => Value.nil
        Except.ok { s with pc := pc1 + 2, stack := v :: s.stack }
      else Except.ok { s with pc := pc1 + 2 }
    | 15 =>                                                           -- OP_STORE
      let varIndex := read16At bc pc1
      if varIndex < bc.constants.length then
        let varName := bc.constants.getD varIndex ""
        match s.stack with
        | v :: rest =>
            Except.ok { s with pc := pc1 + 2, stack := rest,
                               vars := mapSet s.vars varName v }
        | [] => Except.error ("Stack underflow")
      else Except.ok { s with pc := pc1 + 2 }
    | 16 => Except.ok { s with pc := pc1 }                            -- OP_RET
    | 17 => Except.ok { s with pc := bc.code.length }                 -- OP_HALT
    | op => Except.error ("Unknown opcode: " ++ Nat.repr op)
  else Except.error ("Program counter out of bounds")

/-- BytecodeVM::execute instruction loop (simple_interpreter.cpp lines
1541-1565), with explicit fuel since jumps allow non-termination.  The
periodic collectGarbage call between instructions never changes the stack,
the variables or any value, so it does not appear.  Fuel exhaustion is an
artefact of the model, distinct from every source failure message. -/
def runVM (bc : Bytecode) : Nat → VMState → Except String VMState
  | 0, _ => Except.error ("model out of fuel")
  | Nat.succ fuel, s =>
      if s.pc < bc.code.length then
        match executeInstruction bc s with
        | Except.ok s2 => runVM bc fuel s2
        | Except.error e => Except.error e
      else Except.ok s

/-! ### GC reference-edge bookkeeping (gc_value.h)

The collector engine behind slime_gc.h lives outside the src tree; spec 4.5
gives its interface contract, under which slime_gc_add_reference(gc, a, b)
records the directed edge a → b in the reference graph.  Modelled from the
spec: the graph is an edge list over object identities (the C++ object
addresses, modelled as numeric ids).  The GCValue methods of gc_value.h
that decide WHICH edges are recorded are in the sources and are transcribed
below.  To express nesting, an object is its id together with a payload
whose container elements are themselves identified objects. -/

mutual
inductive GCVal where
  | scalar : GCVal
  | arrG : List GCObj → GCVal
  | hashG : List (String × GCObj) → GCVal
inductive GCObj where
  | mk : Nat → GCVal → GCObj
end

def GCObj.oid : GCObj → Nat
  | .mk i _ => i

/-- GCValue::addAllReferences (gc_value.h lines 123-140): one direct edge
self → other; the isArray and isHash branches hold only TODO comments in
the source and record nothing for the nested elements. -/
def addAllReferences (self : Nat) (other : GCObj) (edges : List (Nat × Nat)) :
    List (Nat × Nat) :=
  let edges1 := edges ++ [(self, other.oid)]
  match other with
  | GCObj.mk _ (GCVal.arrG _) => edges1
  | GCObj.mk _ (GCVal.hashG _) => edges1
  | _ => edges1

/-- GCValue::push (gc_value.h lines 207-216): append to the array payload
and record the single edge self → item. -/
def gcPush (self : GCObj) (item : GCObj) (edges : List (Nat × Nat)) :
    GCObj × List (Nat × Nat) :=
  match self with
  | GCObj.mk i (GCVal.arrG elems) =>
      (GCObj.mk i (GCVal.arrG (elems ++ [item])), edges ++ [(i, item.oid)])
  | _ => (self, edges)

/-- Hash assignment on the payload map (std::map operator[]). -/
def gcHashSet : List (String × GCObj) → String → GCObj → List (String × GCObj)
  | [], k, v => [(k, v)]
  | (k0, v0) :: rest, k, v =>
      if k0 = k then (k0, v) :: rest else (k0, v0) :: gcHashSet rest k v

/-- GCValue::set (gc_value.h lines 233-241): write the key and record the
single edge self → value. -/
def gcSet (self : GCObj) (key : String) (value : GCObj) (edges : List (Nat × Nat)) :
    GCObj × List (Nat × Nat) :=
  match self with
  | GCObj.mk i (GCVal.hashG entries) =>
      (GCObj.mk i (GCVal.hashG (gcHashSet entries key value)), edges ++ [(i, value.oid)])
  | _ => (self, edges)

/-! Identities of every Value transitively contained in an object: the
object itself, and recursively the elements of its array payload and the
mapped values of its hash payload — the set the specification requires an
edge to after an assignment (spec 4.5 and 9). -/
mutual
def containedIds : GCObj → List Nat
  | GCObj.mk i v => i :: containedIdsVal v
def containedIdsVal : GCVal → List Nat
  | GCVal.scalar => []
  | GCVal.arrG elems => containedIdsElems elems
  | GCVal.hashG entries => containedIdsPairs entries
def containedIdsElems : List GCObj → List Nat
  | [] => []
  | o :: os => containedIds o ++ containedIdsElems os
def containedIdsPairs : List (String × GCObj) → List Nat
  | [] => []
  | (_, o) :: os => containedIds o ++ containedIdsPairs os
end

/-! ### Resolved disassembly

Reading the instruction stream back at the opcode level with pool indices
resolved to pool values, for stating which instruction sequence a container
executes as. -/

inductive RInstr where
  | pushN : Rat → RInstr
  | pushS : String → RInstr
  | pushC : String → RInstr
  | popR : RInstr
  | addR : RInstr
  | subR : RInstr
  | mulR : RInstr
  | divR : RInstr
  | modR : RInstr
  | callR : String → Nat → RInstr
  | jmpR : Nat → RInstr
  | jmpFalseR : Nat → RInstr
  | jmpTrueR : Nat → RInstr
  | loadR : String → RInstr
  | storeR : String → RInstr
  | retR : RInstr
  | haltR : RInstr
  | nopR : RInstr
deriving DecidableEq

/-- Disassemble from a position with fuel; fails on an unknown opcode or an
unresolvable pool index. -/
def disasm (bc : Bytecode) : Nat → Nat → Option (List RInstr)
  | 0, _ => none
  | Nat.succ fuel, i =>
      if i < bc.code.length then
        match byteAt bc i with
        | 0 => (disasm bc fuel (i + 1)).map (fun l => RInstr.nopR :: l)
        | 1 =>
            match bc.numbers[read16At bc (i + 1)]? with
            | some q => (disasm bc fuel (i + 3)).map (fun l => RInstr.pushN q :: l)
            | none => none
        | 2 =>
            match bc.strings[read16At bc (i + 1)]? with
            | some t => (disasm bc fuel (i + 3)).map (fun l => RInstr.pushS t :: l)
            | none => none
        | 3 =>
            match bc.constants[read16At bc (i + 1)]? with
            | some t => (disasm bc fuel (i + 3)).map (fun l => RInstr.pushC t :: l)
            | none => none
        | 4 => (disasm bc fuel (i + 1)).map (fun l => RInstr.popR :: l)
        | 5 => (disasm bc fuel (i + 1)).map (fun l => RInstr.addR :: l)
        | 6 => (disasm bc fuel (i + 1)).map (fun l => RInstr.subR :: l)
        | 7 => (disasm bc fuel (i + 1)).map (fun l => RInstr.mulR :: l)
        | 8 => (disasm bc fuel (i + 1)).map (fun l => RInstr.divR :: l)
        | 9 => (disasm bc fuel (i + 1)).map (fun l => RInstr.modR :: l)
        | 10 =>
            match bc.functions[read16At bc (i + 1)]? with
            | some f =>
                (disasm bc fuel (i + 4)).map
                  (fun l => RInstr.callR f (byteAt bc (i + 3)) :: l)
            | none => none
        | 11 => (disasm bc fuel (i + 5)).map (fun l => RInstr.jmpR (read32At bc (i + 1)) :: l)
        | 12 =>
            (disasm bc fuel (i + 5)).map (fun l => RInstr.jmpFalseR (read32At bc (i + 1)) :: l)
        | 13 =>
            (disasm bc fuel (i + 5)).map (fun l => RInstr.jmpTrueR (read32At bc (i + 1)) :: l)
        | 14 =>
            match bc.constants[read16At bc (i + 1)]? with
            | some t => (disasm bc fuel (i + 3)).map (fun l => RInstr.loadR t :: l)
            | none => none
        | 15 =>
            match bc.constants[read16At bc (i + 1)]? with
            | some t => (disasm bc fuel (i + 3)).map (fun l => RInstr.storeR t :: l)
            | none => none
        | 16 => (disasm bc fuel (i + 1)).map (fun l => RInstr.retR :: l)
        | 17 => (disasm bc fuel (i + 1)).map (fun l => RInstr.haltR :: l)
        | _ => none
      else some []

/-- Opcode-level reading of the whole instruction stream. -/
def resolved (bc : Bytecode) : Option (List RInstr) :=
  disasm bc (bc.code.length + 1) 0

/-! ### Shared lemmas -/

theorem byteAt_ne_zero_lt (bc : Bytecode) (i : Nat) (h : byteAt bc i ≠ 0) :
    i < bc.code.length := by
  by_contra hge
  have hnone : bc.code[i]? = none := List.getElem?_eq_none (Nat.le_of_not_lt hge)
  exact h (by simp [byteAt, List.getD, hnone])

theorem lookup_append_self {α β : Type} [BEq α] [LawfulBEq α]
    (l : List (α × β)) (k : α) (v : β) :
    (l ++ [(k, v)]).lookup k = ((l.lookup k).orElse (fun _ => some v)) := by
  induction l with
  | nil => simp [List.lookup]
  | cons p t ih =>
      obtain ⟨a, b⟩ := p
      by_cases hk : k == a
      · simp [List.lookup, hk]
      · simp only [List.cons_append, List.lookup, hk]
        exact ih

/-- asBooleanE fails on every non-boolean Value. -/
theorem asBooleanE_error (v : Value) (h : ∀ b, v ≠ Value.boolean b) :
    asBooleanE v = Except.error ("Value is not a boolean") := by
  cases v <;> first | rfl | exact absurd rfl (h _)

/-! ### C10 -/

/-- C10: Value equality is type-strict: for every pair of Values whose type
tags differ, operator== returns false and operator!= returns true — in
particular the number 0, the boolean false, the empty string, and nil are
all pairwise unequal — and two nil Values are always equal. -/
theorem C10_type_strict_equality :
    (∀ v w : Value, typeTag v ≠ typeTag w →
        valueEq v w = false ∧ valueNe v w = true) ∧
    valueEq (Value.num 0) (Value.boolean false) = false ∧
    valueEq (Value.boolean false) (Value.num 0) = false ∧
    valueEq (Value.num 0) (Value.str "") = false ∧
    valueEq (Value.str "") (Value.num 0) = false ∧
    valueEq (Value.num 0) Value.nil = false ∧
    valueEq Value.nil (Value.num 0) = false ∧
    valueEq (Value.boolean false) (Value.str "") = false ∧
    valueEq (Value.str "") (Value.boolean false) = false ∧
    valueEq (Value.boolean false) Value.nil = false ∧
    valueEq Value.nil (Value.boolean false) = false ∧
    valueEq (Value.str "") Value.nil = false ∧
    valueEq Value.nil (Value.str "") = false ∧
    valueEq Value.nil Value.nil = true := by
  refine ⟨fun v w h => ?_, rfl, rfl, rfl, rfl, rfl, rfl, rfl, rfl, rfl, rfl, rfl, rfl, rfl⟩
  constructor
  · cases v <;> cases w <;> first | exact absurd rfl h | rfl
  · rw [valueNe]
    cases v <;> cases w <;> first | exact absurd rfl h | rfl

/-- C10 witness: the universally quantified part applied at the concrete
pair of the number 0 and nil. -/
theorem C10_type_strict_equality_witness :
    valueEq (Value.num 0) Value.nil = false ∧ valueNe (Value.num 0) Value.nil = true :=
  C10_type_strict_equality.1 (Value.num 0) Value.nil (by decide)

/-! ### C5 -/

/-- C5: assigning or appending a value b that itself contains a tracked
value c records only the single edge to b — the isArray and isHash branches
of addAllReferences are TODO stubs — although c is transitively contained
in b, so the reference graph never learns the edge to the nested value that
both the claim and spec 4.5 require. -/
theorem C5_no_nested_edges :
    addAllReferences 0 (GCObj.mk 1 (GCVal.arrG [GCObj.mk 2 GCVal.scalar])) [] = [(0, 1)] ∧
    2 ∈ containedIds (GCObj.mk 1 (GCVal.arrG [GCObj.mk 2 GCVal.scalar])) ∧
    (0, 2) ∉ addAllReferences 0 (GCObj.mk 1 (GCVal.arrG [GCObj.mk 2 GCVal.scalar])) [] ∧
    (gcPush (GCObj.mk 0 (GCVal.arrG []))
        (GCObj.mk 1 (GCVal.arrG [GCObj.mk 2 GCVal.scalar])) []).2 = [(0, 1)] ∧
    (gcSet (GCObj.mk 0 (GCVal.hashG [])) "k"
        (GCObj.mk 1 (GCVal.arrG [GCObj.mk 2 GCVal.scalar])) []).2 = [(0, 1)] := by
  refine ⟨rfl, ?_, ?_, rfl, rfl⟩
  · show 2 ∈ [1, 2]
    simp
  · show (0, 2) ∉ [(0, 1)]
    simp

/-! ### C2 -/

/-- Program of three push instructions whose 2-byte pool indices (0, 1, 2)
are all out of range for the empty pools. -/
def bcC2 : Bytecode := ⟨[1, 0, 0, 2, 0, 1, 3, 0, 2], [], [], [], []⟩

/-- C2: executing push-number, push-string and push-const with out-of-range
pool indices terminates normally with nothing pushed and nothing logged —
the machine silently skips each push (the if without an else at
simple_interpreter.cpp lines 1578-1606) instead of raising the fatal format
error the claim requires. -/
theorem C2_out_of_range_silently_skipped :
    runVM bcC2 4 initialVM = Except.ok ⟨[], [], 9, "", []⟩ := by
  with_unfolding_all rfl

/-! ### C3 -/

def breakAst : ASTNode := ASTNode.mk .program "" [ASTNode.mk .breakN "" []]

def contAst : ASTNode := ASTNode.mk .program "" [ASTNode.mk .continueN "" []]

/-- C3: generating a Break (or Continue) with no active Loop Context does
not fail at compile time; generateBreakStatement emits the bare OP_BREAK
opcode 0x20 (OP_CONTINUE 0x21) with no jump operand and no loop-stack
check, and the machine, whose switch has no case for either, then aborts
with an unknown-opcode failure at run time. -/
theorem C3_break_continue_bare_opcode :
    (generate breakAst).code = [32, 17] ∧
    (generate contAst).code = [33, 17] ∧
    runVM (generate breakAst) 2 initialVM = Except.error ("Unknown opcode: 32") ∧
    runVM (generate contAst) 2 initialVM = Except.error ("Unknown opcode: 33") := by
  refine ⟨?_, ?_, ?_, ?_⟩ <;> with_unfolding_all rfl

/-! ### C6 -/

/-- C6: for each of the four generator pools, interning a value already
recorded in the interning map returns the recorded index and leaves the
whole state unchanged; interning twice therefore returns equal indices both
times, with the pool unchanged by the second call; and interning an absent
value appends it to the pool and returns the previous pool size, the index
of the new last entry (the size is below 65536, within the uint16_t index
range the generator works in). -/
theorem C6_interning_idempotent (s : GenState) (str c fn : String) (q : Rat) :
    (addStringConstant str ((addStringConstant str s).2) =
        ((addStringConstant str s).1, (addStringConstant str s).2)) ∧
    (addNumberConstant q ((addNumberConstant q s).2) =
        ((addNumberConstant q s).1, (addNumberConstant q s).2)) ∧
    (addGeneralConstant c ((addGeneralConstant c s).2) =
        ((addGeneralConstant c s).1, (addGeneralConstant c s).2)) ∧
    (addFunctionName fn ((addFunctionName fn s).2) =
        ((addFunctionName fn s).1, (addFunctionName fn s).2)) ∧
    (∀ i, s.stringConstants.lookup str = some i → addStringConstant str s = (i, s)) ∧
    (∀ i, s.numberConstants.lookup q = some i → addNumberConstant q s = (i, s)) ∧
    (∀ i, s.generalConstants.lookup c = some i → addGeneralConstant c s = (i, s)) ∧
    (∀ i, s.functionNames.lookup fn = some i → addFunctionName fn s = (i, s)) ∧
    (s.stringConstants.lookup str = none → s.bytecode.strings.length < 65536 →
        (addStringConstant str s).1 = s.bytecode.strings.length ∧
        (addStringConstant str s).2.bytecode.strings = s.bytecode.strings ++ [str]) ∧
    (s.numberConstants.lookup q = none → s.bytecode.numbers.length < 65536 →
        (addNumberConstant q s).1 = s.bytecode.numbers.length ∧
        (addNumberConstant q s).2.bytecode.numbers = s.bytecode.numbers ++ [q]) ∧
    (s.generalConstants.lookup c = none → s.bytecode.constants.length < 65536 →
        (addGeneralConstant c s).1 = s.bytecode.constants.length ∧
        (addGeneralConstant c s).2.bytecode.constants = s.bytecode.constants ++ [c]) ∧
    (s.functionNames.lookup fn = none → s.bytecode.functions.length < 65536 →
        (addFunctionName fn s).1 = s.bytecode.functions.length ∧
        (addFunctionName fn s).2.bytecode.functions = s.bytecode.functions ++ [fn]) := by
  refine ⟨?_, ?_, ?_, ?_, ?_, ?_, ?_, ?_, ?_, ?_, ?_, ?_⟩
  · cases hl : s.stringConstants.lookup str with
    | some i => simp [addStringConstant, hl]
    | none => simp [addStringConstant, hl, lookup_append_self]
  · cases hl : s.numberConstants.lookup q with
    | some i => simp [addNumberConstant, hl]
    | none => simp [addNumberConstant, hl, lookup_append_self]
  · cases hl : s.generalConstants.lookup c with
    | some i => simp [addGeneralConstant, hl]
    | none => simp [addGeneralConstant, hl, lookup_append_self]
  · cases hl : s.functionNames.lookup fn with
    | some i => simp [addFunctionName, hl]
    | none => simp [addFunctionName, hl, lookup_append_self]
  · intro i hl; simp [addStringConstant, hl]
  · intro i hl; simp [addNumberConstant, hl]
  · intro i hl; simp [addGeneralConstant, hl]
  · intro i hl; simp [addFunctionName, hl]
  · intro hl hlen; simp [addStringConstant, hl, Nat.mod_eq_of_lt hlen]
  · intro hl hlen; simp [addNumberConstant, hl, Nat.mod_eq_of_lt hlen]
  · intro hl hlen; simp [addGeneralConstant, hl, Nat.mod_eq_of_lt hlen]
  · intro hl hlen; simp [addFunctionName, hl, Nat.mod_eq_of_lt hlen]

/-- C6 witness: interning the string constant a twice into a fresh
generator returns index 0 both times and leaves one pool entry. -/
theorem C6_interning_idempotent_witness :
    (addStringConstant "a" ((addStringConstant "a" emptyGen).2) =
        ((addStringConstant "a" emptyGen).1, (addStringConstant "a" emptyGen).2)) ∧
    (addStringConstant "a" emptyGen).1 = 0 ∧
    (addStringConstant "a" emptyGen).2.bytecode.strings = [] ++ ["a"] := by
  have h := C6_interning_idempotent emptyGen "a" "c" "f" 1
  have h9 := (h.2.2.2.2.2.2.2.2.1) rfl (by decide)
  exact ⟨h.1, h9.1, h9.2⟩

/-! ### C9 -/

/-- BytecodeWriter::writeString (bytecode.h lines 93-97): unconditional
push_back, returning the new size minus one cast to uint16_t. -/
def writeStringW (str : String) (b : Bytecode) : Nat × Bytecode :=
  let strings2 := b.strings ++ [str]
  ((strings2.length - 1) % 65536, { b with strings := strings2 })

/-- BytecodeWriter::writeNumber (bytecode.h lines 99-103). -/
def writeNumberW (num : Rat) (b : Bytecode) : Nat × Bytecode :=
  let numbers2 := b.numbers ++ [num]
  ((numbers2.length - 1) % 65536, { b with numbers := numbers2 })

/-- BytecodeWriter::writeConstant (bytecode.h lines 105-109). -/
def writeConstantW (name : String) (b : Bytecode) : Nat × Bytecode :=
  let constants2 := b.constants ++ [name]
  ((constants2.length - 1) % 65536, { b with constants := constants2 })

/-- BytecodeWriter::writeFunction (bytecode.h lines 111-115). -/
def writeFunctionW (name : String) (b : Bytecode) : Nat × Bytecode :=
  let functions2 := b.functions ++ [name]
  ((functions2.length - 1) % 65536, { b with functions := functions2 })

/-- C9: each BytecodeWriter pool writer unconditionally appends and returns
the new last index, deduplicating nothing: writing the same value twice
grows the pool by two entries and returns the two distinct consecutive
indices size and size + 1 (sizes within the uint16_t index range);
deduplication lives only in the generator interning layer, where a second
addStringConstant of the same string leaves the pool size unchanged. -/
theorem C9_writer_never_dedups (b : Bytecode) (s : GenState) (str nm fn : String) (q : Rat)
    (hs : b.strings.length + 2 < 65536) (hn : b.numbers.length + 2 < 65536)
    (hc : b.constants.length + 2 < 65536) (hf : b.functions.length + 2 < 65536) :
    ((writeStringW str b).1 = b.strings.length ∧
      (writeStringW str ((writeStringW str b).2)).1 = b.strings.length + 1 ∧
      (writeStringW str ((writeStringW str b).2)).2.strings = b.strings ++ [str, str]) ∧
    ((writeNumberW q b).1 = b.numbers.length ∧
      (writeNumberW q ((writeNumberW q b).2)).1 = b.numbers.length + 1 ∧
      (writeNumberW q ((writeNumberW q b).2)).2.numbers = b.numbers ++ [q, q]) ∧
    ((writeConstantW nm b).1 = b.constants.length ∧
      (writeConstantW nm ((writeConstantW nm b).2)).1 = b.constants.length + 1 ∧
      (writeConstantW nm ((writeConstantW nm b).2)).2.constants = b.constants ++ [nm, nm]) ∧
    ((writeFunctionW fn b).1 = b.functions.length ∧
      (writeFunctionW fn ((writeFunctionW fn b).2)).1 = b.functions.length + 1 ∧
      (writeFunctionW fn ((writeFunctionW fn b).2)).2.functions = b.functions ++ [fn, fn]) ∧
    (addStringConstant str ((addStringConstant str s).2)).2.bytecode.strings.length =
      (addStringConstant str s).2.bytecode.strings.length := by
  refine ⟨⟨?_, ?_, ?_⟩, ⟨?_, ?_, ?_⟩, ⟨?_, ?_, ?_⟩, ⟨?_, ?_, ?_⟩, ?_⟩
  · simp [writeStringW, Nat.mod_eq_of_lt (by omega : b.strings.length < 65536)]
  · simp [writeStringW, Nat.mod_eq_of_lt (by omega : b.strings.length + 1 < 65536)]
  · simp [writeStringW]
  · simp [writeNumberW, Nat.mod_eq_of_lt (by omega : b.numbers.length < 65536)]
  · simp [writeNumberW, Nat.mod_eq_of_lt (by omega : b.numbers.length + 1 < 65536)]
  · simp [writeNumberW]
  · simp [writeConstantW, Nat.mod_eq_of_lt (by omega : b.constants.length < 65536)]
  · simp [writeConstantW, Nat.mod_eq_of_lt (by omega : b.constants.length + 1 < 65536)]
  · simp [writeConstantW]
  · simp [writeFunctionW, Nat.mod_eq_of_lt (by omega : b.functions.length < 65536)]
  · simp [writeFunctionW, Nat.mod_eq_of_lt (by omega : b.functions.length + 1 < 65536)]
  · simp [writeFunctionW]
  · cases hl : s.stringConstants.lookup str with
    | some i => simp [addStringConstant, hl]
    | none => simp [addStringConstant, hl, lookup_append_self]

/-- C9 witness: the writer applied twice to the same string on an empty
container returns indices 0 and 1 and a two-entry pool. -/
theorem C9_writer_never_dedups_witness :
    (writeStringW "a" (⟨[], [], [], [], []⟩ : Bytecode)).1 = 0 ∧
    (writeStringW "a" ((writeStringW "a" (⟨[], [], [], [], []⟩ : Bytecode)).2)).1 = 1 ∧
    (writeStringW "a" ((writeStringW "a" (⟨[], [], [], [], []⟩ : Bytecode)).2)).2.strings =
      ["a", "a"] := by
  have h := C9_writer_never_dedups ⟨[], [], [], [], []⟩ emptyGen "a" "n" "f" 1
    (by decide) (by decide) (by decide) (by decide)
  exact ⟨h.1.1, h.1.2.1, h.1.2.2⟩

/-! ### C7 -/

/-- C7: when the machine executes div or mod and the first-popped (right)
operand coerces to numeric zero, it raises the fatal divide- or
modulo-by-zero failure, pushes nothing, and the instruction loop aborts
with that failure; when the right operand is nonzero the quotient or
remainder of the coerced operands is pushed. -/
theorem C7_div_mod_by_zero (bc : Bytecode) (s : VMState) (b a : Value)
    (rest : List Value) (hstack : s.stack = b :: a :: rest) :
    (byteAt bc s.pc = OP_DIV → toNumberV b = 0 →
        executeInstruction bc s = Except.error ("Division by zero") ∧
        ∀ fuel, runVM bc (fuel + 1) s = Except.error ("Division by zero")) ∧
    (byteAt bc s.pc = OP_DIV → toNumberV b ≠ 0 →
        executeInstruction bc s = Except.ok { s with
          pc := s.pc + 1,
          stack := Value.num (toNumberV a / toNumberV b) :: rest }) ∧
    (byteAt bc s.pc = OP_MOD → toNumberV b = 0 →
        executeInstruction bc s = Except.error ("Modulo by zero") ∧
        ∀ fuel, runVM bc (fuel + 1) s = Except.error ("Modulo by zero")) ∧
    (byteAt bc s.pc = OP_MOD → toNumberV b ≠ 0 →
        executeInstruction bc s = Except.ok { s with
          pc := s.pc + 1,
          stack := Value.num (fmodQ (toNumberV a) (toNumberV b)) :: rest }) := by
  refine ⟨?_, ?_, ?_, ?_⟩
  · intro hop hz
    simp only [OP_DIV] at hop
    have hlt := byteAt_ne_zero_lt bc s.pc (by rw [hop]; decide)
    have he : executeInstruction bc s = Except.error ("Division by zero") := by
      simp [executeInstruction, hlt, hop, hstack, hz]
    exact ⟨he, fun fuel => by simp [runVM, hlt, he]⟩
  · intro hop hz
    simp only [OP_DIV] at hop
    have hlt := byteAt_ne_zero_lt bc s.pc (by rw [hop]; decide)
    simp [executeInstruction, hlt, hop, hstack, hz]
  · intro hop hz
    simp only [OP_MOD] at hop
    have hlt := byteAt_ne_zero_lt bc s.pc (by rw [hop]; decide)
    have he : executeInstruction bc s = Except.error ("Modulo by zero") := by
      simp [executeInstruction, hlt, hop, hstack, hz]
    exact ⟨he, fun fuel => by simp [runVM, hlt, he]⟩
  · intro hop hz
    simp only [OP_MOD] at hop
    have hlt := byteAt_ne_zero_lt bc s.pc (by rw [hop]; decide)
    simp [executeInstruction, hlt, hop, hstack, hz]

/-- C7 witness: the scenario 10 / 0 — stack holds 10 under a zero divisor,
the opcode is div — fails with the division error both at instruction level
and through the run loop. -/
theorem C7_div_mod_by_zero_witness :
    executeInstruction ⟨[8], [], [], [], []⟩ ⟨[Value.num 0, Value.num 10], [], 0, "", []⟩ =
      Except.error ("Division by zero") ∧
    runVM ⟨[8], [], [], [], []⟩ 1 ⟨[Value.num 0, Value.num 10], [], 0, "", []⟩ =
      Except.error ("Division by zero") := by
  have h := (C7_div_mod_by_zero ⟨[8], [], [], [], []⟩
    ⟨[Value.num 0, Value.num 10], [], 0, "", []⟩
    (Value.num 0) (Value.num 10) [] rfl).1 rfl rfl
  exact ⟨h.1, h.2 0⟩

/-! ### C4 -/

/-- Pushes the number 0, then a jump-if-false with absolute target 10. -/
def bcC4 : Bytecode := ⟨[1, 0, 0, 12, 0, 0, 0, 10, 17], [], [0], [], []⟩

/-- C4 counterexample: the conditional jump pops the number 0 — falsy under
the type-dependent truthiness the claim requires, so the machine should
branch — but instead the run aborts with the typed asBoolean failure,
refuting the claim that non-boolean values are branched on rather than
failed on. -/
theorem C4_counterexample :
    runVM bcC4 3 initialVM = Except.error ("Value is not a boolean") := by
  with_unfolding_all rfl

/-- C4 (amended): a conditional jump pops the top of stack and branches
according to the popped value only when that value is a boolean, whose own
truth it uses (jump-if-false branches on false, jump-if-true on true);
popping any non-boolean value — including the number 0, the empty string,
and nil — raises the typed failure of Value::asBoolean and aborts
execution.  The type-dependent truthiness table of Value::toBoolean is not
consulted by conditional jumps. -/
theorem C4_conditional_jump_requires_boolean (bc : Bytecode) (s : VMState) (v : Value)
    (rest : List Value) (hstack : s.stack = v :: rest) :
    (byteAt bc s.pc = OP_JMP_IF_FALSE →
        (∀ b, v = Value.boolean b →
            executeInstruction bc s = Except.ok { s with
              pc := if !b then read32At bc (s.pc + 1) else s.pc + 1 + 4,
              stack := rest }) ∧
        ((∀ b, v ≠ Value.boolean b) →
            executeInstruction bc s = Except.error ("Value is not a boolean"))) ∧
    (byteAt bc s.pc = OP_JMP_IF_TRUE →
        (∀ b, v = Value.boolean b →
            executeInstruction bc s = Except.ok { s with
              pc := if b then read32At bc (s.pc + 1) else s.pc + 1 + 4,
              stack := rest }) ∧
        ((∀ b, v ≠ Value.boolean b) →
            executeInstruction bc s = Except.error ("Value is not a boolean"))) := by
  constructor
  · intro hop
    simp only [OP_JMP_IF_FALSE] at hop
    have hlt := byteAt_ne_zero_lt bc s.pc (by rw [hop]; decide)
    constructor
    · intro b hv
      subst hv
      simp [executeInstruction, hlt, hop, hstack, asBooleanE]
    · intro hv
      have ha := asBooleanE_error v hv
      simp [executeInstruction, hlt, hop, hstack, ha]
  · intro hop
    simp only [OP_JMP_IF_TRUE] at hop
    have hlt := byteAt_ne_zero_lt bc s.pc (by rw [hop]; decide)
    constructor
    · intro b hv
      subst hv
      simp [executeInstruction, hlt, hop, hstack, asBooleanE]
    · intro hv
      have ha := asBooleanE_error v hv
      simp [executeInstruction, hlt, hop, hstack, ha]

/-- Jump-if-false with absolute target 6 over two halts. -/
def bcC4w : Bytecode := ⟨[12, 0, 0, 0, 6, 17, 17], [], [], [], []⟩

/-- C4 witness: popping the boolean false branches to the target; popping
the number 0 raises the typed failure. -/
theorem C4_conditional_jump_requires_boolean_witness :
    executeInstruction bcC4w ⟨[Value.boolean false], [], 0, "", []⟩ =
      Except.ok ⟨[], [], 6, "", []⟩ ∧
    executeInstruction bcC4w ⟨[Value.num 0], [], 0, "", []⟩ =
      Except.error ("Value is not a boolean") := by
  constructor
  · have h := ((C4_conditional_jump_requires_boolean bcC4w
      ⟨[Value.boolean false], [], 0, "", []⟩ (Value.boolean false) [] rfl).1 rfl).1
      false rfl
    rw [h]
    with_unfolding_all rfl
  · exact ((C4_conditional_jump_requires_boolean bcC4w
      ⟨[Value.num 0], [], 0, "", []⟩ (Value.num 0) [] rfl).1 rfl).2
      (fun b h => Value.noConfusion h)

/-! ### C8 -/

/-- Tree of the source statement x = 1 + 2 * 3; followed by a call of the
print built-in with x, in the shape the parser produces (the assignment
right side is an Expression wrapping the operator tree, left operand
first). -/
def demoAst : ASTNode :=
  ASTNode.mk .program "" [
    ASTNode.mk .assignN "" [
      ASTNode.mk .identifierN "x" [],
      ASTNode.mk .expressionN "" [
        ASTNode.mk .operatorN "+" [
          ASTNode.mk .numberLit "1" [],
          ASTNode.mk .operatorN "*" [
            ASTNode.mk .numberLit "2" [],
            ASTNode.mk .numberLit "3" []]]]],
    ASTNode.mk .callN "System.Output.Print" [
      ASTNode.mk .identifierN "x" []]]

/-- Instruction sequence the claim asserts for the scenario. -/
def claimedSeqC8 : List RInstr :=
  [RInstr.pushN 2, RInstr.pushN 3, RInstr.mulR, RInstr.pushN 1, RInstr.addR,
   RInstr.storeR "x", RInstr.loadR "x", RInstr.callR "System.Output.Print" 1]

/-- C8 counterexample: the generator emits the left operand before the
right, so the machine executes push(1), push(2), push(3), mul, add — not
the claimed push(2), push(3), mul, push(1), add — and the printed line is
the std::to_string form 7.000000 followed by endl, not 7. -/
theorem C8_counterexample :
    resolved (generate demoAst) ≠ some (claimedSeqC8 ++ [RInstr.haltR]) ∧
    (runVM (generate demoAst) 12 initialVM).map VMState.output ≠ Except.ok "7\n" := by
  constructor
  · with_unfolding_all decide
  · have hrun : (runVM (generate demoAst) 12 initialVM).map VMState.output =
        Except.ok "7.000000\n" := by with_unfolding_all rfl
    rw [hrun]
    intro h
    injection h with h2
    exact absurd h2 (by decide)

/-- C8 (amended): compiling x = 1 + 2 * 3; followed by a print call with x
yields bytecode the machine executes as push(1), push(2), push(3), mul,
add, store(x), load(x), call(print, 1), halt; the machine stores 7 in x and
the printed output line is 7.000000. -/
theorem C8_arith_print_scenario :
    generate demoAst =
      ⟨[1, 0, 0, 1, 0, 1, 1, 0, 2, 7, 5, 15, 0, 0, 14, 0, 0, 10, 0, 0, 1, 17],
        [], [1, 2, 3], ["x"], ["System.Output.Print"]⟩ ∧
    resolved (generate demoAst) =
      some [RInstr.pushN 1, RInstr.pushN 2, RInstr.pushN 3, RInstr.mulR, RInstr.addR,
            RInstr.storeR "x", RInstr.loadR "x",
            RInstr.callR "System.Output.Print" 1, RInstr.haltR] ∧
    (runVM (generate demoAst) 12 initialVM).map VMState.output =
      Except.ok "7.000000\n" ∧
    (runVM (generate demoAst) 12 initialVM).map VMState.vars =
      Except.ok [("x", Value.num 7)] := by
  refine ⟨?_, ?_, ?_, ?_⟩ <;> with_unfolding_all rfl

end Slime
